import Mathlib

/-!
Verification of the API proxy gateway service (TypeScript sources) against its
natural-language specification.  Each section shallowly embeds one module of
the implementation:

* `maskApiKey`            — the credential masking helper of the logger module.
* circuit breaker         — `CircuitBreakerManager.recordSuccess/recordFailure`
                            and the transition helpers (per-instance logic; the
                            manager's `Map` lookup is factored out).
* load balancer           — `LoadBalancer.selectApiKey` (round-robin branch),
                            `recordSuccess`, `recordFailure`,
                            `checkAndRecoverCircuitBrokenKeys`.
* upstream client         — `GeminiClient.makeRequest` retry loop,
                            `shouldRetry`, `wrapError`, `makeStreamRequest`.
* format translator       — `OpenAIAdapter.convertMessagesToContents`,
                            `convertStreamChunkToOpenAI` and the streaming
                            pipeline of `RequestHandler.handleStreamingRequest`.
* batch validator         — `KeyValidatorService.validateSingleKey` and
                            `createStreamValidation`.
* orchestrator            — the control flow of
                            `RequestHandler.handleChatCompletions`.

Wall-clock instants are embedded as natural numbers (milliseconds).  Upstream
I/O is embedded by passing the outcome of each outgoing call as an explicit
oracle argument.  Random identifiers and timestamps of response envelopes,
which no claim depends on, are omitted from the embedded response records.
-/

namespace ProxyGateway

/-- Embedding of `maskApiKey` from the logger module (`src/unnamed/part_002`):
keys no longer than `prefixLength + suffixLength` are replaced by that many
asterisks; longer keys keep their first `prefixLength` and last `suffixLength`
characters around a literal `"......"`. -/
def maskApiKey (apiKey : String) (prefixLength : Nat := 7) (suffixLength : Nat := 7) : String :=
  if apiKey.length ≤ prefixLength + suffixLength then
    String.mk (List.replicate apiKey.length '*')
  else
    String.mk (apiKey.toList.take prefixLength)
      ++ "......"
      ++ String.mk (apiKey.toList.drop (apiKey.length - suffixLength))

/-- C10: the output of `maskApiKey` (at its default arguments) depends only on
the key's length, its first 7 characters and its last 7 characters; and every
key of length at most 14 is masked to asterisks of the same length, so no
middle character of a key flows into the masked form. -/
theorem maskApiKey_depends_only_on_ends :
    (∀ k1 k2 : String, k1.length = k2.length →
      k1.toList.take 7 = k2.toList.take 7 →
      k1.toList.drop (k1.length - 7) = k2.toList.drop (k2.length - 7) →
      maskApiKey k1 = maskApiKey k2)
    ∧ (∀ k : String, k.length ≤ 14 →
      maskApiKey k = String.mk (List.replicate k.length '*')) := by
  constructor
  · intro k1 k2 hlen htake hdrop
    rw [hlen] at hdrop
    simp only [maskApiKey]
    rw [hlen, htake, hdrop]
  · intro k hk
    simp only [maskApiKey]
    rw [if_pos (by omega)]

/-- Witness for C10 at concrete keys: two 20-character keys agreeing on length
and both 7-character ends mask identically, and a 5-character key masks to
five asterisks. -/
theorem maskApiKey_depends_only_on_ends_witness :
    maskApiKey "aaaaaaaMIDDLEbbbbbbb" = maskApiKey "aaaaaaaXXXXXXbbbbbbb" ∧
    maskApiKey "short" = String.mk (List.replicate ("short".length) '*') :=
  ⟨maskApiKey_depends_only_on_ends.1 "aaaaaaaMIDDLEbbbbbbb" "aaaaaaaXXXXXXbbbbbbb"
      (by decide) (by decide) (by decide),
    maskApiKey_depends_only_on_ends.2 "short" (by decide)⟩

/-! ## Circuit breaker (`CircuitBreakerManager` in the core module) -/

/-- States of the `CircuitBreakerState` enum; `OPEN` is rendered `opened`. -/
inductive CBState
  | closed
  | opened
  | halfOpen
deriving Repr, DecidableEq

/-- Embedding of the `CircuitBreakerStats` record. -/
structure CircuitBreakerStats where
  requestCount : Nat
  successCount : Nat
  failureCount : Nat
  lastRequestTime : Option Nat
  lastFailureTime : Option Nat
  lastSuccessTime : Option Nat
deriving Repr, DecidableEq

/-- Embedding of the `CircuitBreakerInstance` record. -/
structure CircuitBreakerInstance where
  state : CBState
  stats : CircuitBreakerStats
  stateChangeTime : Nat
  nextAttemptTime : Option Nat
  halfOpenSuccessCount : Nat
  halfOpenFailureCount : Nat
deriving Repr, DecidableEq

/-- Embedding of `CircuitBreakerConfig` (the unused `monitoringPeriod` is
dropped). -/
structure CircuitBreakerConfig where
  failureThreshold : Nat
  resetTimeout : Nat
deriving Repr, DecidableEq

/-- The fresh instance built by `getOrCreateCircuitBreaker` for an unseen key. -/
def freshCircuitBreaker (now : Nat) : CircuitBreakerInstance :=
  { state := CBState.closed
    stats := { requestCount := 0, successCount := 0, failureCount := 0
               lastRequestTime := none, lastFailureTime := none, lastSuccessTime := none }
    stateChangeTime := now
    nextAttemptTime := none
    halfOpenSuccessCount := 0
    halfOpenFailureCount := 0 }

/-- Embedding of `CircuitBreakerManager.transitionToOpen`. -/
def transitionToOpen (cfg : CircuitBreakerConfig) (now : Nat)
    (cb : CircuitBreakerInstance) : CircuitBreakerInstance :=
  { cb with
    state := CBState.opened
    stateChangeTime := now
    nextAttemptTime := some (now + cfg.resetTimeout)
    halfOpenSuccessCount := 0
    halfOpenFailureCount := 0 }

/-- Embedding of `CircuitBreakerManager.transitionToHalfOpen`. -/
def transitionToHalfOpen (now : Nat) (cb : CircuitBreakerInstance) : CircuitBreakerInstance :=
  { cb with
    state := CBState.halfOpen
    stateChangeTime := now
    halfOpenSuccessCount := 0
    halfOpenFailureCount := 0
    nextAttemptTime := none }

/-- Embedding of `CircuitBreakerManager.resetFailureCount`. -/
def resetFailureCount (cb : CircuitBreakerInstance) : CircuitBreakerInstance :=
  { cb with stats := { cb.stats with failureCount := 0, lastFailureTime := none } }

/-- Embedding of `CircuitBreakerManager.transitionToClosed`. -/
def transitionToClosed (now : Nat) (cb : CircuitBreakerInstance) : CircuitBreakerInstance :=
  resetFailureCount
    { cb with
      state := CBState.closed
      stateChangeTime := now
      halfOpenSuccessCount := 0
      halfOpenFailureCount := 0 }

/-- Embedding of `CircuitBreakerManager.shouldTripCircuitBreaker`. -/
def shouldTripCircuitBreaker (cfg : CircuitBreakerConfig)
    (cb : CircuitBreakerInstance) : Bool :=
  cfg.failureThreshold ≤ cb.stats.failureCount

/-- Embedding of the per-instance body of `CircuitBreakerManager.recordSuccess`
(the manager first looks the instance up in its map and returns when absent;
that lookup is factored out here). -/
def cbRecordSuccess (now : Nat) (cb : CircuitBreakerInstance) : CircuitBreakerInstance :=
  let cb1 := { cb with
    stats := { cb.stats with
      successCount := cb.stats.successCount + 1
      lastSuccessTime := some now } }
  match cb1.state with
  | CBState.halfOpen =>
    let cb2 := { cb1 with halfOpenSuccessCount := cb1.halfOpenSuccessCount + 1 }
    if 3 ≤ cb2.halfOpenSuccessCount then transitionToClosed now cb2 else cb2
  | CBState.closed => resetFailureCount cb1
  | CBState.opened => cb1

/-- Embedding of the per-instance body of `CircuitBreakerManager.recordFailure`
(the `getOrCreateCircuitBreaker` lookup is factored out). -/
def cbRecordFailure (cfg : CircuitBreakerConfig) (now : Nat)
    (cb : CircuitBreakerInstance) : CircuitBreakerInstance :=
  let cb1 := { cb with
    stats := { cb.stats with
      failureCount := cb.stats.failureCount + 1
      lastFailureTime := some now } }
  match cb1.state with
  | CBState.closed =>
    if shouldTripCircuitBreaker cfg cb1 then transitionToOpen cfg now cb1 else cb1
  | CBState.halfOpen =>
    transitionToOpen cfg now
      { cb1 with halfOpenFailureCount := cb1.halfOpenFailureCount + 1 }
  | CBState.opened => cb1

/-- A sequence of recorded failures at the given instants, oldest first. -/
def cbApplyFailures (cfg : CircuitBreakerConfig) (times : List Nat)
    (cb : CircuitBreakerInstance) : CircuitBreakerInstance :=
  times.foldl (fun c t => cbRecordFailure cfg t c) cb

lemma cbRecordFailure_closed_stay (cfg : CircuitBreakerConfig) (now : Nat)
    (cb : CircuitBreakerInstance) (hst : cb.state = CBState.closed)
    (hlt : cb.stats.failureCount + 1 < cfg.failureThreshold) :
    (cbRecordFailure cfg now cb).state = CBState.closed ∧
    (cbRecordFailure cfg now cb).stats.failureCount = cb.stats.failureCount + 1 ∧
    (cbRecordFailure cfg now cb).nextAttemptTime = cb.nextAttemptTime := by
  simp only [cbRecordFailure, hst, shouldTripCircuitBreaker, decide_eq_true_eq]
  split
  · exfalso; omega
  · exact ⟨rfl, rfl, rfl⟩

lemma cbRecordFailure_closed_trip (cfg : CircuitBreakerConfig) (now : Nat)
    (cb : CircuitBreakerInstance) (hst : cb.state = CBState.closed)
    (hge : cfg.failureThreshold ≤ cb.stats.failureCount + 1) :
    (cbRecordFailure cfg now cb).state = CBState.opened ∧
    (cbRecordFailure cfg now cb).nextAttemptTime = some (now + cfg.resetTimeout) := by
  simp only [cbRecordFailure, hst, shouldTripCircuitBreaker, decide_eq_true_eq]
  split
  · refine ⟨?_, ?_⟩ <;> rfl
  · exfalso; omega

lemma cbApplyFailures_below_threshold (cfg : CircuitBreakerConfig)
    (times : List Nat) (cb : CircuitBreakerInstance)
    (hst : cb.state = CBState.closed)
    (hlt : cb.stats.failureCount + times.length < cfg.failureThreshold) :
    (cbApplyFailures cfg times cb).state = CBState.closed ∧
    (cbApplyFailures cfg times cb).stats.failureCount
      = cb.stats.failureCount + times.length ∧
    (cbApplyFailures cfg times cb).nextAttemptTime = cb.nextAttemptTime := by
  induction times generalizing cb with
  | nil => exact ⟨hst, by simp [cbApplyFailures], rfl⟩
  | cons t rest ih =>
    have hstep := cbRecordFailure_closed_stay cfg t cb hst (by simp at hlt; omega)
    have := ih (cbRecordFailure cfg t cb) hstep.1 (by simp at hlt ⊢; omega)
    simp only [cbApplyFailures, List.foldl_cons] at *
    refine ⟨this.1, ?_, ?_⟩
    · rw [this.2.1, hstep.2.1]; simp [Nat.add_assoc, Nat.add_comm 1]
    · rw [this.2.2, hstep.2.2]

/-- C3: from a freshly created breaker (CLOSED, zero failure count), fewer than
`failure_threshold` consecutive recorded failures leave it CLOSED, and the
`failure_threshold`-th failure moves it to OPEN with the cooldown deadline set
to that failure's instant plus `resetTimeout`; while HALF_OPEN, a recorded
success increments the probe counter and keeps HALF_OPEN until the counter
reaches 3, at which point the breaker closes (so the third success of a probe
window closes it), and a single recorded failure immediately reopens it with a
fresh cooldown deadline. -/
theorem circuitBreaker_trip_and_probe (cfg : CircuitBreakerConfig) :
    (∀ t0 : Nat, ∀ times : List Nat, times.length < cfg.failureThreshold →
      (cbApplyFailures cfg times (freshCircuitBreaker t0)).state = CBState.closed)
    ∧ (∀ t0 : Nat, ∀ times : List Nat, ∀ tLast : Nat,
      times.length + 1 = cfg.failureThreshold →
      (cbApplyFailures cfg (times ++ [tLast]) (freshCircuitBreaker t0)).state
          = CBState.opened ∧
      (cbApplyFailures cfg (times ++ [tLast]) (freshCircuitBreaker t0)).nextAttemptTime
          = some (tLast + cfg.resetTimeout))
    ∧ (∀ now : Nat, ∀ cb : CircuitBreakerInstance, cb.state = CBState.halfOpen →
      (cb.halfOpenSuccessCount + 1 < 3 →
        (cbRecordSuccess now cb).state = CBState.halfOpen ∧
        (cbRecordSuccess now cb).halfOpenSuccessCount = cb.halfOpenSuccessCount + 1) ∧
      (3 ≤ cb.halfOpenSuccessCount + 1 →
        (cbRecordSuccess now cb).state = CBState.closed ∧
        (cbRecordSuccess now cb).stats.failureCount = 0))
    ∧ (∀ now : Nat, ∀ cb : CircuitBreakerInstance, cb.state = CBState.halfOpen →
      (cbRecordFailure cfg now cb).state = CBState.opened ∧
      (cbRecordFailure cfg now cb).nextAttemptTime = some (now + cfg.resetTimeout)) := by
  refine ⟨?_, ?_, ?_, ?_⟩
  · intro t0 times hlt
    exact (cbApplyFailures_below_threshold cfg times (freshCircuitBreaker t0) rfl
      (by simpa [freshCircuitBreaker] using hlt)).1
  · intro t0 times tLast hlen
    have hpre := cbApplyFailures_below_threshold cfg times (freshCircuitBreaker t0) rfl
      (by simp [freshCircuitBreaker]; omega)
    have hsplit : cbApplyFailures cfg (times ++ [tLast]) (freshCircuitBreaker t0)
        = cbRecordFailure cfg tLast (cbApplyFailures cfg times (freshCircuitBreaker t0)) := by
      simp [cbApplyFailures]
    have hcount : (cbApplyFailures cfg times (freshCircuitBreaker t0)).stats.failureCount
        = times.length := by simpa [freshCircuitBreaker] using hpre.2.1
    have htrip := cbRecordFailure_closed_trip cfg tLast
      (cbApplyFailures cfg times (freshCircuitBreaker t0)) hpre.1 (by omega)
    rw [hsplit]
    exact htrip
  · intro now cb hst
    refine ⟨?_, ?_⟩
    · intro hlt
      simp only [cbRecordSuccess, hst]
      split
      · exfalso; omega
      · exact ⟨rfl, rfl⟩
    · intro hge
      simp only [cbRecordSuccess, hst]
      split
      · exact ⟨rfl, rfl⟩
      · exfalso; omega
  · intro now cb hst
    simp only [cbRecordFailure, hst]
    exact ⟨rfl, rfl⟩

/-- Witness for C3 at the default configuration (threshold 3, cooldown 60 s):
two failures leave a fresh breaker CLOSED, the third opens it with deadline
`2 + 60000`, success probes at a HALF_OPEN instance count up and the third one
closes it, and one failure from HALF_OPEN reopens it. -/
theorem circuitBreaker_trip_and_probe_witness :
    (cbApplyFailures ⟨3, 60000⟩ [0, 1] (freshCircuitBreaker 0)).state = CBState.closed ∧
    (cbApplyFailures ⟨3, 60000⟩ ([0, 1] ++ [2]) (freshCircuitBreaker 0)).state
        = CBState.opened ∧
    (cbApplyFailures ⟨3, 60000⟩ ([0, 1] ++ [2]) (freshCircuitBreaker 0)).nextAttemptTime
        = some (2 + 60000) ∧
    ((cbRecordSuccess 70000 (transitionToHalfOpen 70000
        (cbApplyFailures ⟨3, 60000⟩ ([0, 1] ++ [2]) (freshCircuitBreaker 0)))).state
      = CBState.halfOpen) ∧
    ((cbRecordFailure ⟨3, 60000⟩ 70001 (transitionToHalfOpen 70000
        (cbApplyFailures ⟨3, 60000⟩ ([0, 1] ++ [2]) (freshCircuitBreaker 0)))).state
      = CBState.opened) := by
  have h := circuitBreaker_trip_and_probe ⟨3, 60000⟩
  refine ⟨h.1 0 [0, 1] (by decide), (h.2.1 0 [0, 1] 2 (by decide)).1,
    (h.2.1 0 [0, 1] 2 (by decide)).2, ?_, ?_⟩
  · exact ((h.2.2.1 70000 _ (by decide)).1 (by decide)).1
  · exact (h.2.2.2 70001 _ (by decide)).1

/-! ## Load balancer (`LoadBalancer` in the core module) -/

/-- Values of the `ApiKeyStatus` enum. -/
inductive ApiKeyStatus
  | available
  | circuitBroken
  | invalid
deriving Repr, DecidableEq

/-- Embedding of the `ApiKeyInfo` record. -/
structure ApiKeyInfo where
  key : String
  status : ApiKeyStatus
  failureCount : Nat
  lastFailureTime : Option Nat
  circuitBreakerResetTime : Option Nat
  requestCount : Nat
  successCount : Nat
deriving Repr, DecidableEq

/-- State of a `LoadBalancer`: its key map (a JavaScript `Map` iterates in
insertion order, embedded as a list ordered by insertion) and the round-robin
cursor.  The strategy field is fixed to `ROUND_ROBIN`, the branch the claims
are about. -/
structure LoadBalancerState where
  apiKeys : List ApiKeyInfo
  roundRobinIndex : Nat
deriving Repr, DecidableEq

/-- The record built by `LoadBalancer.addApiKey` for a new key. -/
def newApiKeyInfo (k : String) : ApiKeyInfo :=
  { key := k, status := ApiKeyStatus.available, failureCount := 0
    lastFailureTime := none, circuitBreakerResetTime := none
    requestCount := 0, successCount := 0 }

/-- Embedding of `LoadBalancer.addApiKey`: an empty key raises (swallowed by
the caller `addApiKeys`), an existing key is left untouched, a new key is
appended in insertion order. -/
def addApiKey (k : String) (st : LoadBalancerState) : LoadBalancerState :=
  if k = "" then st
  else if st.apiKeys.any (fun i => i.key == k) then st
  else { st with apiKeys := st.apiKeys ++ [newApiKeyInfo k] }

/-- Embedding of `LoadBalancer.addApiKeys`. -/
def addApiKeys (ks : List String) (st : LoadBalancerState) : LoadBalancerState :=
  ks.foldl (fun s k => addApiKey k s) st

/-- Embedding of `LoadBalancer.getAvailableKeys`. -/
def getAvailableKeys (st : LoadBalancerState) : List ApiKeyInfo :=
  st.apiKeys.filter (fun i => i.status == ApiKeyStatus.available)

/-- The `keyInfo.requestCount++` update performed by `selectApiKey` on the
selected entry of the key map. -/
def bumpRequestCount (k : String) (st : LoadBalancerState) : LoadBalancerState :=
  { st with apiKeys := st.apiKeys.map (fun i =>
      if i.key == k then { i with requestCount := i.requestCount + 1 } else i) }

/-- Embedding of `LoadBalancer.selectApiKey` with the `ROUND_ROBIN` strategy
branch (`selectRoundRobin`) inlined: fail when no key is AVAILABLE, otherwise
pick `availableKeys[roundRobinIndex % availableKeys.length]`, advance the
cursor modulo the current length, and bump the selected entry's request
count.  `none` models the thrown `LoadBalancerException`
(NoCredentialAvailable). -/
def selectApiKey (st : LoadBalancerState) : Option (String × LoadBalancerState) :=
  match getAvailableKeys st with
  | [] => none
  | a :: rest =>
    let avail := a :: rest
    let selected := avail.getD (st.roundRobinIndex % avail.length) a
    let st1 := { st with roundRobinIndex := (st.roundRobinIndex + 1) % avail.length }
    some (selected.key, bumpRequestCount selected.key st1)

/-- The per-entry update of `LoadBalancer.recordSuccess`: increment the
success count, zero the failure count, and if the entry was CIRCUIT_BROKEN
restore it to AVAILABLE and delete its reset time. -/
def lbSuccessUpdate (i : ApiKeyInfo) : ApiKeyInfo :=
  let i1 := { i with successCount := i.successCount + 1, failureCount := 0 }
  if i1.status == ApiKeyStatus.circuitBroken then
    { i1 with status := ApiKeyStatus.available, circuitBreakerResetTime := none }
  else i1

/-- Embedding of `LoadBalancer.recordSuccess` (no-op for an unknown key). -/
def lbRecordSuccess (k : String) (st : LoadBalancerState) : LoadBalancerState :=
  { st with apiKeys := st.apiKeys.map (fun i =>
      if i.key == k then lbSuccessUpdate i else i) }

/-- The per-entry update of `LoadBalancer.recordFailure` together with
`circuitBreakApiKey`: increment the failure count, stamp the failure time, and
trip the key once the count reaches `appConfig.circuitBreaker.failureThreshold`. -/
def lbFailureUpdate (cfg : CircuitBreakerConfig) (now : Nat) (i : ApiKeyInfo) : ApiKeyInfo :=
  let i1 := { i with failureCount := i.failureCount + 1, lastFailureTime := some now }
  if cfg.failureThreshold ≤ i1.failureCount then
    { i1 with status := ApiKeyStatus.circuitBroken
              circuitBreakerResetTime := some (now + cfg.resetTimeout) }
  else i1

/-- Embedding of `LoadBalancer.recordFailure` (no-op for an unknown key). -/
def lbRecordFailure (cfg : CircuitBreakerConfig) (now : Nat) (k : String)
    (st : LoadBalancerState) : LoadBalancerState :=
  { st with apiKeys := st.apiKeys.map (fun i =>
      if i.key == k then lbFailureUpdate cfg now i else i) }

/-- The per-entry update of `LoadBalancer.checkAndRecoverCircuitBrokenKeys`:
a CIRCUIT_BROKEN entry whose reset time has arrived becomes AVAILABLE with its
failure state cleared; every other entry is untouched. -/
def recoverUpdate (now : Nat) (i : ApiKeyInfo) : ApiKeyInfo :=
  match i.status, i.circuitBreakerResetTime with
  | ApiKeyStatus.circuitBroken, some r =>
    if r ≤ now then
      { i with status := ApiKeyStatus.available, failureCount := 0
               circuitBreakerResetTime := none, lastFailureTime := none }
    else i
  | _, _ => i

/-- Embedding of `LoadBalancer.checkAndRecoverCircuitBrokenKeys`, the periodic
sweeper. -/
def checkAndRecoverCircuitBrokenKeys (now : Nat) (st : LoadBalancerState) : LoadBalancerState :=
  { st with apiKeys := st.apiKeys.map (recoverUpdate now) }

/-- C9: a single recorded success on a CIRCUIT_BROKEN credential immediately
restores it to AVAILABLE, zeroes its failure count and clears its reset
timer (while bumping the success count and leaving the request count alone);
no multi-probe window is required. -/
theorem lbRecordSuccess_restores_broken_key (st : LoadBalancerState) (k : String)
    (info : ApiKeyInfo) (hmem : info ∈ st.apiKeys) (hkey : info.key = k)
    (hcb : info.status = ApiKeyStatus.circuitBroken) :
    ∃ info2 ∈ (lbRecordSuccess k st).apiKeys,
      info2.key = k ∧
      info2.status = ApiKeyStatus.available ∧
      info2.failureCount = 0 ∧
      info2.circuitBreakerResetTime = none ∧
      info2.successCount = info.successCount + 1 ∧
      info2.requestCount = info.requestCount := by
  refine ⟨lbSuccessUpdate info, ?_, ?_⟩
  · have h := List.mem_map_of_mem
      (fun i => if i.key == k then lbSuccessUpdate i else i) hmem
    simpa [lbRecordSuccess, hkey] using h
  · simp [lbSuccessUpdate, hkey, hcb]

/-- A CIRCUIT_BROKEN entry used by the C9 witness. -/
def brokenEntryExample : ApiKeyInfo :=
  { key := "kA", status := ApiKeyStatus.circuitBroken
    failureCount := 3, lastFailureTime := some 40
    circuitBreakerResetTime := some 100
    requestCount := 8, successCount := 5 }

/-- A one-entry balancer around `brokenEntryExample`. -/
def brokenEntryState : LoadBalancerState :=
  { apiKeys := [brokenEntryExample], roundRobinIndex := 0 }

/-- Witness for C9: in a one-entry balancer whose key `kA` is CIRCUIT_BROKEN
with reset time 100 and success count 5, one recorded success yields an
AVAILABLE entry with zero failures, no reset time and success count 6. -/
theorem lbRecordSuccess_restores_broken_key_witness :
    ∃ info2 ∈ (lbRecordSuccess "kA" brokenEntryState).apiKeys,
      info2.key = "kA" ∧
      info2.status = ApiKeyStatus.available ∧
      info2.failureCount = 0 ∧
      info2.circuitBreakerResetTime = none ∧
      info2.successCount = brokenEntryExample.successCount + 1 ∧
      info2.requestCount = brokenEntryExample.requestCount :=
  lbRecordSuccess_restores_broken_key brokenEntryState "kA" brokenEntryExample
    (by decide) (by decide) (by decide)

/-- The entry of a credential `kA` that tripped at time 0 under a 100 ms
cooldown: CIRCUIT_BROKEN with reset time 100. -/
def trippedKaEntry : ApiKeyInfo :=
  { key := "kA", status := ApiKeyStatus.circuitBroken
    failureCount := 3, lastFailureTime := some 0
    circuitBreakerResetTime := some 100
    requestCount := 3, successCount := 0 }

/-- A one-credential balancer around `trippedKaEntry`. -/
def trippedSingleKeyState : LoadBalancerState :=
  { apiKeys := [trippedKaEntry], roundRobinIndex := 0 }

/-- C4 counterexample: `selectApiKey` takes no clock and performs no lazy
recovery, so with a single credential tripped at time 0 under a 100 ms
cooldown, a selection at t = 150 ms (cooldown elapsed, `100 ≤ 150`) still
fails with NoCredentialAvailable instead of returning the credential. -/
theorem selectApiKey_no_lazy_recovery_counterexample :
    selectApiKey trippedSingleKeyState = none ∧ (100 : Nat) ≤ 150 := by
  constructor
  · rfl
  · decide

/-- C4 (amended): selection never applies the recovery transition — whenever
no entry is AVAILABLE it fails with NoCredentialAvailable regardless of
elapsed cooldowns (the selector does not consult the clock) — and the expired
CIRCUIT_BROKEN entry becomes selectable only once the periodic sweeper
`checkAndRecoverCircuitBrokenKeys` has run at a time past its reset time; in
particular, for the single credential tripped under a 100 ms cooldown, running
the sweeper at t = 150 ms and then selecting returns `kA`. -/
theorem selectApiKey_recovery_needs_sweeper :
    (∀ st : LoadBalancerState,
      (∀ i ∈ st.apiKeys, i.status ≠ ApiKeyStatus.available) → selectApiKey st = none)
    ∧ (∀ now r : Nat, ∀ st : LoadBalancerState, ∀ i : ApiKeyInfo,
      i ∈ st.apiKeys → i.status = ApiKeyStatus.circuitBroken →
      i.circuitBreakerResetTime = some r → r ≤ now →
      ∃ j ∈ (checkAndRecoverCircuitBrokenKeys now st).apiKeys,
        j.key = i.key ∧ j.status = ApiKeyStatus.available ∧
        j.failureCount = 0 ∧ j.circuitBreakerResetTime = none)
    ∧ ((selectApiKey (checkAndRecoverCircuitBrokenKeys 150 trippedSingleKeyState)).map
        Prod.fst = some "kA") := by
  refine ⟨?_, ?_, ?_⟩
  · intro st hall
    have hemp : getAvailableKeys st = [] := by
      simp only [getAvailableKeys, List.filter_eq_nil_iff]
      intro i hi
      simpa using hall i hi
    simp [selectApiKey, hemp]
  · intro now r st i hmem hst hreset hle
    refine ⟨recoverUpdate now i, ?_, ?_⟩
    · exact List.mem_map_of_mem (recoverUpdate now) hmem
    · simp [recoverUpdate, hst, hreset, hle]
  · decide

/-- Witness for the amended C4: the universally quantified parts applied to
the concrete tripped state — every-key-broken selection fails, and the
sweeper at t = 150 ms restores `kA`. -/
theorem selectApiKey_recovery_needs_sweeper_witness :
    selectApiKey trippedSingleKeyState = none ∧
    (∃ j ∈ (checkAndRecoverCircuitBrokenKeys 150 trippedSingleKeyState).apiKeys,
      j.key = "kA" ∧ j.status = ApiKeyStatus.available ∧
      j.failureCount = 0 ∧ j.circuitBreakerResetTime = none) :=
  ⟨selectApiKey_recovery_needs_sweeper.1 trippedSingleKeyState (by decide),
    by
      have h := selectApiKey_recovery_needs_sweeper.2.1 150 100 trippedSingleKeyState
        trippedKaEntry (by decide) (by decide) (by decide) (by decide)
      simpa [trippedKaEntry] using h⟩

/-! ## Round-robin selection order (C6) -/

/-- The keys of the available entries, in insertion order. -/
def rrKeys (st : LoadBalancerState) : List String :=
  (getAvailableKeys st).map ApiKeyInfo.key

/-- The sequence of keys handed out by `n` consecutive `selectApiKey` calls,
threading the balancer state. -/
def rrRun : LoadBalancerState → Nat → List String
  | _, 0 => []
  | st, n + 1 =>
    match selectApiKey st with
    | none => []
    | some (k, st2) => k :: rrRun st2 n

lemma getAvailableKeys_bump (k : String) (st : LoadBalancerState) :
    getAvailableKeys (bumpRequestCount k st)
      = (getAvailableKeys st).map (fun i =>
          if i.key == k then { i with requestCount := i.requestCount + 1 } else i) := by
  simp only [getAvailableKeys, bumpRequestCount]
  rw [List.filter_map]
  congr 1
  apply List.filter_congr
  intro i _hi
  by_cases h : i.key = k <;> simp [h]

lemma rrKeys_bump (k : String) (st : LoadBalancerState) :
    rrKeys (bumpRequestCount k st) = rrKeys st := by
  rw [rrKeys, getAvailableKeys_bump, List.map_map, rrKeys]
  apply List.map_congr_left
  intro i _hi
  by_cases h : i.key = k <;> simp [h]

lemma rrKeys_length (st : LoadBalancerState) :
    (rrKeys st).length = (getAvailableKeys st).length := by
  simp [rrKeys]

lemma selectApiKey_spec (st : LoadBalancerState) (h : getAvailableKeys st ≠ []) :
    ∃ st2, selectApiKey st
        = some ((rrKeys st).getD (st.roundRobinIndex % (rrKeys st).length) "", st2)
      ∧ rrKeys st2 = rrKeys st
      ∧ st2.roundRobinIndex = (st.roundRobinIndex + 1) % (rrKeys st).length := by
  match hA : getAvailableKeys st with
  | [] => exact absurd hA h
  | a :: rest =>
    have hlen : (rrKeys st).length = (a :: rest).length := by
      rw [rrKeys_length, hA]
    have hpos : 0 < (a :: rest).length := by simp
    have hmod : st.roundRobinIndex % (a :: rest).length < (a :: rest).length :=
      Nat.mod_lt _ hpos
    have hkeysel : (rrKeys st).getD (st.roundRobinIndex % (rrKeys st).length) ""
        = ((a :: rest).getD (st.roundRobinIndex % (a :: rest).length) a).key := by
      rw [hlen, rrKeys, hA,
        List.getD_eq_get _ _ (by simpa using hmod),
        List.getD_eq_get _ _ hmod, List.get_map]
    refine ⟨bumpRequestCount
        ((a :: rest).getD (st.roundRobinIndex % (a :: rest).length) a).key
        { st with roundRobinIndex := (st.roundRobinIndex + 1) % (a :: rest).length },
      ?_, ?_, ?_⟩
    · simp only [selectApiKey, hA]
      rw [hkeysel]
    · rw [rrKeys_bump]
      rfl
    · simp [bumpRequestCount, hlen]

lemma rrRun_model (n : Nat) : ∀ st : LoadBalancerState, rrKeys st ≠ [] →
    rrRun st n = (List.range n).map (fun j =>
      (rrKeys st).getD ((st.roundRobinIndex + j) % (rrKeys st).length) "") := by
  induction n with
  | zero => intro st _; simp [rrRun]
  | succ n ih =>
    intro st h
    have hA : getAvailableKeys st ≠ [] := by
      intro hc
      exact h (by simp [rrKeys, hc])
    obtain ⟨st2, hsel, hkeys, hidx⟩ := selectApiKey_spec st hA
    have hrun : rrRun st (n + 1)
        = (rrKeys st).getD (st.roundRobinIndex % (rrKeys st).length) "" :: rrRun st2 n := by
      rw [rrRun, hsel]
    rw [hrun, ih st2 (by rw [hkeys]; exact h), hkeys, hidx,
      List.range_succ_eq_map, List.map_cons, List.map_map]
    congr 1
    apply List.map_congr_left
    intro j _hj
    simp only [Function.comp_apply]
    have hEq : ((st.roundRobinIndex + 1) % (rrKeys st).length + j) % (rrKeys st).length
        = (st.roundRobinIndex + (j + 1)) % (rrKeys st).length := by
      rw [Nat.mod_add_mod]
      congr 1
      omega
    rw [hEq]

lemma rrRun_eq_rotate (st : LoadBalancerState) (h : rrKeys st ≠ []) :
    rrRun st (rrKeys st).length
      = (rrKeys st).rotate (st.roundRobinIndex % (rrKeys st).length) := by
  rw [rrRun_model _ st h]
  have hpos : 0 < (rrKeys st).length := List.length_pos.mpr h
  apply List.ext_get
  · simp
  · intro j h1 h2
    have hj : j < (rrKeys st).length := by simpa using h1
    rw [List.get_map, List.get_rotate]
    have hidx : (st.roundRobinIndex + List.get (List.range (rrKeys st).length) ⟨j, by simpa using hj⟩)
        % (rrKeys st).length
        = (j + st.roundRobinIndex % (rrKeys st).length) % (rrKeys st).length := by
      rw [List.get_range, Nat.add_mod_mod]
      congr 1
      omega
    rw [hidx, List.getD_eq_get _ _ (Nat.mod_lt _ hpos)]

/-- C6: under the round-robin policy, running `k` consecutive selections over
a stable available set of size `k` yields exactly the available keys in
insertion order rotated to the cursor (hence each member exactly once, each
with count 1 when the keys are distinct — which `LoadBalancer`'s key map
guarantees); and for any cursor value — in particular after the available set
shrank — selection succeeds whenever the available set is non-empty. -/
theorem roundRobin_cycles_and_never_fails :
    (∀ st : LoadBalancerState, ∀ k : Nat, rrKeys st ≠ [] → k = (rrKeys st).length →
      rrRun st k = (rrKeys st).rotate (st.roundRobinIndex % k) ∧
      (rrRun st k).Perm (rrKeys st) ∧
      ((rrKeys st).Nodup → ∀ x ∈ rrKeys st, (rrRun st k).count x = 1))
    ∧ (∀ st : LoadBalancerState, rrKeys st ≠ [] → ∃ p, selectApiKey st = some p) := by
  constructor
  · intro st k h hk
    subst hk
    have hrot := rrRun_eq_rotate st h
    refine ⟨hrot, ?_, ?_⟩
    · rw [hrot]
      exact List.rotate_perm _ _
    · intro hnd x hx
      rw [hrot, (List.rotate_perm _ _).count_eq]
      exact List.count_eq_one_of_mem hnd hx
  · intro st h
    have hA : getAvailableKeys st ≠ [] := by
      intro hc
      exact h (by simp [rrKeys, hc])
    obtain ⟨st2, hsel, -, -⟩ := selectApiKey_spec st hA
    exact ⟨_, hsel⟩

/-- A balancer holding three freshly registered keys `k1, k2, k3`. -/
def threeKeyState : LoadBalancerState :=
  { apiKeys := [newApiKeyInfo "k1", newApiKeyInfo "k2", newApiKeyInfo "k3"]
    roundRobinIndex := 0 }

/-- Witness for C6: with three available keys and cursor 0, three consecutive
selections return the registration order rotated by 0, key `k2` is handed out
exactly once, and selection succeeds. -/
theorem roundRobin_cycles_and_never_fails_witness :
    rrRun threeKeyState 3 = (rrKeys threeKeyState).rotate (threeKeyState.roundRobinIndex % 3) ∧
    (rrRun threeKeyState 3).count "k2" = 1 ∧
    ∃ p, selectApiKey threeKeyState = some p := by
  have h1 := roundRobin_cycles_and_never_fails.1 threeKeyState 3 (by decide) (by decide)
  exact ⟨h1.1, h1.2.2 (by decide) "k2" (by decide),
    roundRobin_cycles_and_never_fails.2 threeKeyState (by decide)⟩

/-! ## Upstream client (`GeminiClient`) retry behaviour -/

/-- Errors as thrown inside the try-block of `GeminiClient.makeRequest` on one
attempt: `handleErrorResponse` throws `UpstreamServiceException` for a non-OK
status, `fetchWithTimeout` throws `GatewayTimeoutException` on abort, JSON
parsing throws `ParseException`, and every other `fetch` failure (in
particular a network failure) propagates as a raw untyped error — it is
classified by message content only later, in `wrapError`.  The two flags of
`raw` record whether the raw error's message mentions a timeout
(`timeout`/`ETIMEDOUT`) or the network (`network`/`ECONNREFUSED`/`ENOTFOUND`),
the checks `wrapError` performs. -/
inductive AttemptError
  | upstreamStatus (code : Nat)
  | gatewayTimeout
  | parseFailure
  | raw (timeoutMsg networkMsg : Bool)
deriving Repr, DecidableEq

/-- The typed error surfaced to the caller of the client, after `wrapError`. -/
inductive WrappedError
  | upstreamStatus (code : Nat)
  | gatewayTimeout
  | parseFailure
  | network
  | unknownUpstream
deriving Repr, DecidableEq

/-- Embedding of `GeminiClient.shouldRetry`, restricted to the errors that can
occur inside `makeRequest`: `UpstreamServiceException` retries unless the
status is in `[400, 401, 403, 404]`; `GatewayTimeoutException` retries; a
`ParseException` or a raw untyped error is an instance of neither retryable
class, so it does not retry.  (The source's `NetworkException` branch returns
true, but no `NetworkException` can reach `shouldRetry` from `makeRequest`:
`wrapError`, which creates it, runs only after the retry loop.) -/
def shouldRetry : AttemptError → Bool
  | AttemptError.upstreamStatus code =>
    !(code = 400 ∨ code = 401 ∨ code = 403 ∨ code = 404 : Bool)
  | AttemptError.gatewayTimeout => true
  | AttemptError.parseFailure => false
  | AttemptError.raw _ _ => false

/-- Embedding of `GeminiClient.wrapError`: already-typed exceptions pass
through; a raw error becomes `GatewayTimeoutException` when its message
mentions a timeout, `NetworkException` when it mentions the network, and an
`UpstreamServiceException` (502) otherwise. -/
def wrapError : AttemptError → WrappedError
  | AttemptError.upstreamStatus code => WrappedError.upstreamStatus code
  | AttemptError.gatewayTimeout => WrappedError.gatewayTimeout
  | AttemptError.parseFailure => WrappedError.parseFailure
  | AttemptError.raw timeoutMsg networkMsg =>
    if timeoutMsg then WrappedError.gatewayTimeout
    else if networkMsg then WrappedError.network
    else WrappedError.unknownUpstream

/-- Outcome of one outgoing attempt, supplied as an oracle. -/
inductive AttemptOutcome
  | ok
  | err (e : AttemptError)
deriving Repr, DecidableEq

/-- The retry loop of `GeminiClient.makeRequest`: `attempt` runs from 0 to
`retryCount`; on failure, when `attempt < retryCount` and `shouldRetry`, the
loop waits `retryDelay * (attempt + 1)` and continues, otherwise it breaks and
throws `wrapError lastError`.  The result carries the outcome, the number of
attempts actually made, and the list of back-off delays awaited.  `fuel`
bounds the recursion; `makeRequest` supplies `retryCount + 1`, enough for the
loop's full range. -/
def makeRequestGo (retryCount retryDelay : Nat) (oracle : Nat → AttemptOutcome) :
    Nat → Nat → Except WrappedError Unit × Nat × List Nat
  | attempt, 0 => (Except.error WrappedError.unknownUpstream, attempt, [])
  | attempt, fuel + 1 =>
    match oracle attempt with
    | AttemptOutcome.ok => (Except.ok (), attempt + 1, [])
    | AttemptOutcome.err e =>
      if attempt < retryCount ∧ shouldRetry e = true then
        let r := makeRequestGo retryCount retryDelay oracle (attempt + 1) fuel
        (r.1, r.2.1, retryDelay * (attempt + 1) :: r.2.2)
      else (Except.error (wrapError e), attempt + 1, [])

/-- Embedding of `GeminiClient.makeRequest`. -/
def makeRequest (retryCount retryDelay : Nat) (oracle : Nat → AttemptOutcome) :
    Except WrappedError Unit × Nat × List Nat :=
  makeRequestGo retryCount retryDelay oracle 0 (retryCount + 1)

/-- Embedding of `GeminiClient.makeStreamRequest`: a single attempt, no loop;
a failure is wrapped and rethrown.  The second component counts attempts. -/
def makeStreamRequest (outcome : AttemptOutcome) : Except WrappedError Unit × Nat :=
  match outcome with
  | AttemptOutcome.ok => (Except.ok (), 1)
  | AttemptOutcome.err e => (Except.error (wrapError e), 1)

/-- C8: at the default configuration (`retry_count = 2`,
`retry_delay = 1000`), a raw network error (the form a transport failure
actually takes inside the loop) is NOT retried — one attempt, no back-off,
`NetworkException` surfaced — although the claim says network errors retry;
timeouts and a 5xx status are retried with linear back-off delays
`[1000, 2000]`; a 401 is not retried; and the streaming call always makes
exactly one attempt. -/
theorem makeRequest_network_error_not_retried :
    makeRequest 2 1000 (fun _ => AttemptOutcome.err (AttemptError.raw false true))
      = (Except.error WrappedError.network, 1, []) ∧
    makeRequest 2 1000 (fun _ => AttemptOutcome.err AttemptError.gatewayTimeout)
      = (Except.error WrappedError.gatewayTimeout, 3, [1000, 2000]) ∧
    makeRequest 2 1000 (fun _ => AttemptOutcome.err (AttemptError.upstreamStatus 500))
      = (Except.error (WrappedError.upstreamStatus 500), 3, [1000, 2000]) ∧
    makeRequest 2 1000 (fun _ => AttemptOutcome.err (AttemptError.upstreamStatus 401))
      = (Except.error (WrappedError.upstreamStatus 401), 1, []) ∧
    shouldRetry (AttemptError.raw false true) = false ∧
    (∀ o : AttemptOutcome, (makeStreamRequest o).2 = 1) := by
  refine ⟨rfl, rfl, rfl, rfl, rfl, ?_⟩
  intro o
  cases o <;> rfl

/-! ## Format translator (`OpenAIAdapter`): request messages -/

/-- The `function` payload of an OpenAI tool call.  `arguments` is the
JSON-encoded argument text; `JSON.parse`, applied by the adapter, is embedded
as carrying the source text through. -/
structure OpenAIFunctionCall where
  name : String
  arguments : String
deriving Repr, DecidableEq

/-- Embedding of `OpenAIToolCall`. -/
structure OpenAIToolCall where
  id : String
  type : String
  function : OpenAIFunctionCall
deriving Repr, DecidableEq

/-- Embedding of `OpenAIMessage`; optional fields absent from a request are
`none` / `[]`. -/
structure OpenAIMessage where
  role : String
  content : String
  name : Option String := none
  tool_calls : List OpenAIToolCall := []
  tool_call_id : Option String := none
deriving Repr, DecidableEq

/-- A `functionCall` part payload (`args` keeps the JSON text). -/
structure GeminiFunctionCall where
  name : String
  args : String
deriving Repr, DecidableEq

/-- A `functionResponse` part payload (`response` keeps the JSON text). -/
structure GeminiFunctionResponse where
  name : String
  response : String
deriving Repr, DecidableEq

/-- Embedding of `GeminiPart`: a part object with up to one of its optional
fields populated by the adapter. -/
structure GeminiPart where
  text : Option String := none
  functionCall : Option GeminiFunctionCall := none
  functionResponse : Option GeminiFunctionResponse := none
deriving Repr, DecidableEq

/-- Embedding of `GeminiContent`. -/
structure GeminiContent where
  role : String
  parts : List GeminiPart
deriving Repr, DecidableEq

/-- Embedding of `OpenAIAdapter.mapOpenAIRoleToGemini`. -/
def mapOpenAIRoleToGemini (role : String) : String :=
  if role = "user" then "user"
  else if role = "assistant" then "model"
  else if role = "tool" then "function"
  else "user"

/-- JavaScript truthiness of `message.name || "unknown_function"`: an absent
or empty name falls back to the default. -/
def nameOrUnknown (name : Option String) : String :=
  match name with
  | some s => if s = "" then "unknown_function" else s
  | none => "unknown_function"

/-- JavaScript truthiness of an optional string (`message.tool_call_id`). -/
def optStringTruthy : Option String → Bool
  | some s => s ≠ ""
  | none => false

/-- Embedding of `OpenAIAdapter.convertMessageContentToParts`: a text part
for truthy content, one `functionCall` part per tool call of type
`"function"`, a `functionResponse` part for a `tool` message with a truthy
`tool_call_id`, and a single empty text part when nothing was produced. -/
def convertMessageContentToParts (m : OpenAIMessage) : List GeminiPart :=
  let textParts : List GeminiPart :=
    if m.content ≠ "" then [{ text := some m.content }] else []
  let callParts : List GeminiPart :=
    m.tool_calls.filterMap (fun tc =>
      if tc.type = "function" then
        some { functionCall := some { name := tc.function.name, args := tc.function.arguments } }
      else none)
  let responseParts : List GeminiPart :=
    if m.role = "tool" ∧ optStringTruthy m.tool_call_id = true then
      [{ functionResponse := some { name := nameOrUnknown m.name, response := m.content } }]
    else []
  let parts := textParts ++ callParts ++ responseParts
  if parts = [] then [{ text := some "" }] else parts

/-- The loop of `OpenAIAdapter.convertMessagesToContents`: system messages are
skipped while (re)assigning the `systemInstruction` variable — a later system
message overwrites an earlier one — and every other message is appended as one
content entry. -/
def convertLoop (ms : List OpenAIMessage) : List GeminiContent × Option String :=
  ms.foldl (fun acc m =>
    if m.role = "system" then (acc.1, some m.content)
    else (acc.1 ++ [{ role := mapOpenAIRoleToGemini m.role
                      parts := convertMessageContentToParts m }], acc.2))
    ([], none)

/-- JavaScript truthiness of `contents[0].parts[0]?.text`. -/
def firstPartTextTruthy (c : GeminiContent) : Bool :=
  match c.parts with
  | p :: _ =>
    match p.text with
    | some t => t ≠ ""
    | none => false
  | [] => false

/-- The in-place prefix assignment
`firstUserContent.parts[0].text = sys + "\n\n" + text`. -/
def prependSystemToFirst (sys : String) (c : GeminiContent) : GeminiContent :=
  match c.parts with
  | p :: rest =>
    match p.text with
    | some t => { c with parts := { p with text := some (sys ++ "\n\n" ++ t) } :: rest }
    | none => c
  | [] => c

/-- Embedding of `OpenAIAdapter.convertMessagesToContents`: run the loop, then
— when a truthy system instruction was captured, the first content exists, has
role `user` and a truthy first text part — prepend the instruction with a
blank-line separator to that part. -/
def convertMessagesToContents (ms : List OpenAIMessage) : List GeminiContent :=
  match convertLoop ms with
  | (c :: rest, some sys) =>
    if sys ≠ "" ∧ c.role = "user" ∧ firstPartTextTruthy c = true then
      prependSystemToFirst sys c :: rest
    else c :: rest
  | (cs, _) => cs

/-- A plain text message, as in the specification scenarios. -/
def mkTextMessage (role content : String) : OpenAIMessage :=
  { role := role, content := content }

/-- C5 counterexample: with two system messages `"A"`, `"B"` before user
`"U"`, the translation keeps only the LAST system message — the produced
first part is `"B\n\nU"`, not the claimed concatenation `"A\nB\n\nU"` — so
system messages are overwritten, not coalesced. -/
theorem convertMessages_not_coalescing_counterexample :
    convertMessagesToContents
        [mkTextMessage "system" "A", mkTextMessage "system" "B", mkTextMessage "user" "U"]
      = [{ role := "user", parts := [{ text := some "B\n\nU" }] }] ∧
    ("B\n\nU" : String) ≠ "A\nB\n\nU" := by
  constructor
  · rfl
  · decide

/-- C5 (amended): only the last system message is retained; when the message
list is `[system S, user U]` the result is the single content
`[user, [text S\n\nU]]` (scenario S5); an earlier system message is discarded
outright (the translation of `system a :: system b :: rest` equals that of
`system b :: rest`); and with no non-system message at all the system text is
dropped — no synthetic user message is created. -/
theorem convertMessages_last_system_prepended :
    (∀ s u : String, s ≠ "" → u ≠ "" →
      convertMessagesToContents [mkTextMessage "system" s, mkTextMessage "user" u]
        = [{ role := "user", parts := [{ text := some (s ++ "\n\n" ++ u) }] }])
    ∧ (∀ a b : String, ∀ rest : List OpenAIMessage,
      convertMessagesToContents
          (mkTextMessage "system" a :: mkTextMessage "system" b :: rest)
        = convertMessagesToContents (mkTextMessage "system" b :: rest))
    ∧ (∀ s : String, convertMessagesToContents [mkTextMessage "system" s] = []) := by
  refine ⟨?_, ?_, ?_⟩
  · intro s u hs hu
    simp only [convertMessagesToContents, convertLoop, List.foldl_cons, List.foldl_nil,
      mkTextMessage, convertMessageContentToParts, mapOpenAIRoleToGemini,
      firstPartTextTruthy, prependSystemToFirst, optStringTruthy]
    simp [hs, hu]
  · intro a b rest
    rfl
  · intro s
    rfl

/-- Witness for the amended C5 at scenario S5: `[system "S", user "U"]`
translates to the single content `[user, [text "S\n\nU"]]`. -/
theorem convertMessages_last_system_prepended_witness :
    convertMessagesToContents [mkTextMessage "system" "S", mkTextMessage "user" "U"]
      = [{ role := "user", parts := [{ text := some ("S" ++ "\n\n" ++ "U") }] }] :=
  convertMessages_last_system_prepended.1 "S" "U" (by decide) (by decide)

/-! ## Format translator: streaming chunks, and the streaming pipeline -/

/-- Embedding of `GeminiCandidate` (safety ratings are never read). -/
structure GeminiCandidate where
  content : Option GeminiContent := none
  finishReason : Option String := none
  index : Option Nat := none
deriving Repr, DecidableEq

/-- A parsed upstream SSE data event.  The top-level `finishReason` field
exists here because `convertStreamChunkToOpenAI` reads `chunk.finishReason`;
in the Gemini wire format the field lives on each candidate and the top-level
one is absent (`none`). -/
structure GeminiStreamChunk where
  candidates : List GeminiCandidate := []
  finishReason : Option String := none
deriving Repr, DecidableEq

/-- Embedding of `OpenAIAdapter.mapGeminiFinishReasonToOpenAI`. -/
def mapGeminiFinishReasonToOpenAI (finishReason : Option String) : Option String :=
  if finishReason = some "STOP" then some "stop"
  else if finishReason = some "MAX_TOKENS" then some "length"
  else if finishReason = some "SAFETY" then some "content_filter"
  else if finishReason = some "RECITATION" then some "content_filter"
  else if finishReason = some "OTHER" then some "stop"
  else none

/-- Embedding of `OpenAIAdapter.convertGeminiChunkToDelta`: the first
candidate's parts with truthy text are concatenated into `delta.content`
(`none` models an absent `content` field on the delta). -/
def convertGeminiChunkToDelta (chunk : GeminiStreamChunk) : Option String :=
  match chunk.candidates with
  | [] => none
  | cand :: _ =>
    match cand.content with
    | none => none
    | some content =>
      let textParts := (content.parts.filterMap (fun p => p.text)).filter (fun t => t ≠ "")
      if textParts ≠ [] then some (String.join textParts) else none

/-- One downstream chunk's choice: `{index: 0, delta, finish_reason}`. -/
structure OpenAIStreamChoice where
  index : Nat
  delta : Option String
  finish_reason : Option String
deriving Repr, DecidableEq

/-- The downstream chunk envelope.  The random `id`, the clock-derived
`created` and the model name — which no claim depends on — are omitted. -/
structure OpenAIStreamChunk where
  object : String
  choices : List OpenAIStreamChoice
deriving Repr, DecidableEq

/-- Embedding of `OpenAIAdapter.convertStreamChunkToOpenAI`: note that the
`finish_reason` is mapped from the TOP-LEVEL `chunk.finishReason`, not from
the first candidate's `finishReason`. -/
def convertStreamChunkToOpenAI (chunk : GeminiStreamChunk) : OpenAIStreamChunk :=
  { object := "chat.completion.chunk"
    choices := [{ index := 0
                  delta := convertGeminiChunkToDelta chunk
                  finish_reason := mapGeminiFinishReasonToOpenAI chunk.finishReason }] }

/-- An event written to the downstream SSE response. -/
inductive DownstreamEvent
  | chunk (c : OpenAIStreamChunk)
  | done
deriving Repr, DecidableEq

/-- Embedding of the loop of `RequestHandler.handleStreamingRequest` on an
upstream stream given as its parsed `data:` events (within the scope of C2
every upstream event is a well-formed JSON data line carrying one text delta):
each event is converted and written as one downstream chunk, and when the
upstream stream ends the `data: [DONE]` marker
(`OpenAIAdapter.getStreamEndMarker`) is written once. -/
def handleStreamingRequest (events : List GeminiStreamChunk) : List DownstreamEvent :=
  events.map (fun e => DownstreamEvent.chunk (convertStreamChunkToOpenAI e)) ++
    [DownstreamEvent.done]

/-- Scenario S4, first upstream event: one candidate with text `"Hel"`. -/
def s4FirstEvent : GeminiStreamChunk :=
  { candidates := [{ content := some { role := "model", parts := [{ text := some "Hel" }] } }] }

/-- Scenario S4, second upstream event: one candidate with text `"lo"` and
candidate-level `finishReason: "STOP"`. -/
def s4SecondEvent : GeminiStreamChunk :=
  { candidates := [{ content := some { role := "model", parts := [{ text := some "lo" }] }
                     finishReason := some "STOP" }] }

/-- C2: on scenario S4's two upstream events the pipeline emits exactly one
`chat.completion.chunk` per event with `delta.content` `"Hel"` and `"lo"` and
exactly one terminator — but the second chunk's `finish_reason` is `null`,
not `"stop"`, although its first candidate's `finishReason` is `STOP` and the
adapter's mapping sends `STOP` to `"stop"`: the converter reads the top-level
`chunk.finishReason`, which Gemini events do not carry, instead of the
candidate's. -/
theorem streamChunk_finish_reason_always_null :
    handleStreamingRequest [s4FirstEvent, s4SecondEvent]
      = [DownstreamEvent.chunk
           { object := "chat.completion.chunk",
             choices := [{ index := 0, delta := some "Hel", finish_reason := none }] },
         DownstreamEvent.chunk
           { object := "chat.completion.chunk",
             choices := [{ index := 0, delta := some "lo", finish_reason := none }] },
         DownstreamEvent.done] ∧
    (s4SecondEvent.candidates.head?.bind GeminiCandidate.finishReason = some "STOP") ∧
    mapGeminiFinishReasonToOpenAI (some "STOP") = some "stop" ∧
    (handleStreamingRequest [s4FirstEvent, s4SecondEvent]).count DownstreamEvent.done = 1 := by
  refine ⟨?_, rfl, rfl, ?_⟩ <;> decide

/-! ## Batch validator (`KeyValidatorService`) -/

/-- Embedding of the object `GeminiClient.validateApiKey` resolves with: the
probe (`generateContent` of a minimal request) either returns — `valid: true`
— or throws, and the catch turns ANY thrown error, network and timeout errors
included, into `valid: false` with the error message; it never rejects. -/
structure ValidateKeyResult where
  valid : Bool
  error : Option WrappedError
deriving Repr, DecidableEq

/-- Embedding of `GeminiClient.validateApiKey`, over the probe call's
outcome. -/
def geminiValidateApiKey (call : Except WrappedError Unit) : ValidateKeyResult :=
  match call with
  | Except.ok _ => { valid := true, error := none }
  | Except.error e => { valid := false, error := some e }

/-- Outcome of `Promise.race([validateApiKey, 15 s timeout])` inside
`validateSingleKey`: either `validateApiKey` resolves first (with the probe
call's outcome) or the 15 s validation timeout rejects first. -/
inductive RaceOutcome
  | completed (call : Except WrappedError Unit)
  | timedOut
deriving Repr

/-- The three verdicts of `KeyValidationResult.status`. -/
inductive Verdict
  | good
  | bad
  | error
deriving Repr, DecidableEq

/-- Whitespace trimming (`apiKey.trim()`), written structurally over the
character list so that concrete instances evaluate in the kernel. -/
def jsTrim (s : String) : String :=
  String.mk (((s.toList.dropWhile Char.isWhitespace).reverse.dropWhile
    Char.isWhitespace).reverse)

/-- Embedding of `KeyValidatorService.validateSingleKey`: a blank key is BAD
outright; otherwise GOOD when the race completed with `valid: true`, BAD when
it completed with `valid: false` (which is how network errors arrive, already
swallowed by `validateApiKey`), and ERROR exactly when the race rejected —
i.e. the 15 s validation timeout fired. -/
def validateSingleKey (key : String) (race : RaceOutcome) : Verdict :=
  if jsTrim key = "" then Verdict.bad
  else
    match race with
    | RaceOutcome.timedOut => Verdict.error
    | RaceOutcome.completed call =>
      if (geminiValidateApiKey call).valid then Verdict.good else Verdict.bad

/-- An event of the `/verify` SSE stream. -/
inductive ValidationEvent
  | verdictEvent (maskedKey : String) (v : Verdict)
  | doneEvent
deriving Repr, DecidableEq

/-- Embedding of `KeyValidatorService.createStreamValidation`: empty and
over-50 lists throw a `ValidationException` (`Except.error ()`); otherwise
one verdict event is enqueued per credential, then a single `data: [DONE]`.
The 10-way batching only affects the interleaving of the verdict events, so
they are embedded in submission order. -/
def createStreamValidation (keys : List String) (races : String → RaceOutcome) :
    Except Unit (List ValidationEvent) :=
  if keys.length = 0 ∨ 50 < keys.length then Except.error ()
  else Except.ok
    ((keys.map (fun k => ValidationEvent.verdictEvent (maskApiKey k)
        (validateSingleKey k (races k)))) ++ [ValidationEvent.doneEvent])

/-- C7 counterexample: a probe that fails with a network error yields verdict
BAD, not the claimed ERROR — `validateApiKey` swallows the network failure
into `valid: false` before the validator classifies, so ERROR is reserved for
the 15 s race timeout. -/
theorem validator_network_error_is_bad_counterexample :
    createStreamValidation ["kNet"]
        (fun _ => RaceOutcome.completed (Except.error WrappedError.network))
      = Except.ok [ValidationEvent.verdictEvent (maskApiKey "kNet") Verdict.bad,
          ValidationEvent.doneEvent] ∧
    Verdict.bad ≠ Verdict.error := by
  constructor
  · rfl
  · decide

/-- C7 (amended): lists of length 0 or above 50 are rejected; a list of
length 1 to 50 produces exactly one verdict event per credential (in
submission order, carrying the masked key) followed by exactly one `[DONE]`
terminator; and for every non-blank key the verdict is GOOD iff the probe
call succeeded, ERROR iff the 15 s validation race timed out, and BAD for
every other outcome — in particular for every probe that failed with any
error, network errors included. -/
theorem validator_stream_and_verdicts :
    (∀ keys : List String, ∀ races : String → RaceOutcome,
      keys.length = 0 ∨ 50 < keys.length → createStreamValidation keys races = Except.error ())
    ∧ (∀ keys : List String, ∀ races : String → RaceOutcome,
      keys ≠ [] → keys.length ≤ 50 →
      ∃ evs, createStreamValidation keys races = Except.ok evs ∧
        evs = (keys.map (fun k => ValidationEvent.verdictEvent (maskApiKey k)
            (validateSingleKey k (races k)))) ++ [ValidationEvent.doneEvent] ∧
        evs.length = keys.length + 1 ∧
        evs.count ValidationEvent.doneEvent = 1)
    ∧ (∀ k : String, ∀ race : RaceOutcome, jsTrim k ≠ "" →
      (validateSingleKey k race = Verdict.good
        ↔ race = RaceOutcome.completed (Except.ok ())) ∧
      (validateSingleKey k race = Verdict.error ↔ race = RaceOutcome.timedOut) ∧
      (∀ e : WrappedError,
        validateSingleKey k (RaceOutcome.completed (Except.error e)) = Verdict.bad)) := by
  refine ⟨?_, ?_, ?_⟩
  · intro keys races hlen
    simp only [createStreamValidation]
    rw [if_pos hlen]
  · intro keys races hne hlen
    have hcond : ¬ (keys.length = 0 ∨ 50 < keys.length) := by
      rintro (h0 | h50)
      · exact hne (List.length_eq_zero.mp h0)
      · omega
    refine ⟨_, ?_, rfl, ?_, ?_⟩
    · simp only [createStreamValidation]
      rw [if_neg hcond]
    · simp
    · rw [List.count_append]
      have h0 : (keys.map fun k => ValidationEvent.verdictEvent (maskApiKey k)
          (validateSingleKey k (races k))).count ValidationEvent.doneEvent = 0 := by
        rw [List.count_eq_zero]
        intro hmem
        obtain ⟨k, -, hk⟩ := List.mem_map.mp hmem
        exact ValidationEvent.noConfusion hk
      rw [h0]
      rfl
  · intro k race hk
    refine ⟨?_, ?_, ?_⟩
    · constructor
      · intro h
        cases race with
        | timedOut => simp [validateSingleKey, hk] at h
        | completed call =>
          cases call with
          | ok u => cases u; rfl
          | error e => simp [validateSingleKey, hk, geminiValidateApiKey] at h
      · intro h
        subst h
        simp [validateSingleKey, hk, geminiValidateApiKey]
    · constructor
      · intro h
        cases race with
        | timedOut => rfl
        | completed call =>
          cases call with
          | ok u => simp [validateSingleKey, hk, geminiValidateApiKey] at h
          | error e => simp [validateSingleKey, hk, geminiValidateApiKey] at h
      · intro h
        subst h
        simp [validateSingleKey, hk]
    · intro e
      simp [validateSingleKey, hk, geminiValidateApiKey]

/-- Witness for the amended C7 at scenario S6: `[g, b]` with `g` probing OK
and `b` rejected upstream with 401 yields exactly the verdicts GOOD and BAD
followed by one `[DONE]`; and a non-blank key whose probe hit a network error
gets verdict BAD. -/
theorem validator_stream_and_verdicts_witness :
    (∃ evs, createStreamValidation ["gGood", "bBad"]
        (fun k => if k = "gGood" then RaceOutcome.completed (Except.ok ())
          else RaceOutcome.completed (Except.error (WrappedError.upstreamStatus 401)))
        = Except.ok evs ∧
      evs = (["gGood", "bBad"].map (fun k => ValidationEvent.verdictEvent (maskApiKey k)
          (validateSingleKey k ((fun k => if k = "gGood" then RaceOutcome.completed (Except.ok ())
            else RaceOutcome.completed (Except.error (WrappedError.upstreamStatus 401))) k))))
          ++ [ValidationEvent.doneEvent] ∧
      evs.length = (["gGood", "bBad"] : List String).length + 1 ∧
      evs.count ValidationEvent.doneEvent = 1) ∧
    validateSingleKey "kNet" (RaceOutcome.completed (Except.error WrappedError.network))
      = Verdict.bad :=
  ⟨validator_stream_and_verdicts.2.1 ["gGood", "bBad"] _ (by decide) (by decide),
    (validator_stream_and_verdicts.2.2 "kNet"
      (RaceOutcome.completed (Except.error WrappedError.network)) (by decide)).2.2
      WrappedError.network⟩

/-! ## Circuit breaker manager map, and the request orchestrator (C1) -/

/-- The `Map` of `CircuitBreakerManager`, keyed by credential, in insertion
order. -/
abbrev CBMap : Type := List (String × CircuitBreakerInstance)

/-- `Map.get`. -/
def cbmFind (k : String) (m : CBMap) : Option CircuitBreakerInstance :=
  (List.find? (fun p => p.1 == k) m).map Prod.snd

/-- Embedding of `getOrCreateCircuitBreaker`: look the key up, inserting a
fresh CLOSED instance when absent. -/
def cbmGetOrCreate (now : Nat) (k : String) (m : CBMap) : CircuitBreakerInstance × CBMap :=
  match cbmFind k m with
  | some cb => (cb, m)
  | none => (freshCircuitBreaker now, m ++ [(k, freshCircuitBreaker now)])

/-- In-place mutation of the instance stored under `k`. -/
def cbmUpdate (k : String) (cb : CircuitBreakerInstance) (m : CBMap) : CBMap :=
  List.map (fun p => if p.1 == k then (p.1, cb) else p) m

/-- Embedding of `CircuitBreakerManager.recordFailure` at the manager level. -/
def cbmRecordFailure (cfg : CircuitBreakerConfig) (now : Nat) (k : String) (m : CBMap) : CBMap :=
  let r := cbmGetOrCreate now k m
  cbmUpdate k (cbRecordFailure cfg now r.1) r.2

/-- Embedding of `CircuitBreakerManager.recordSuccess` at the manager level
(returns unchanged when the key is unknown). -/
def cbmRecordSuccess (now : Nat) (k : String) (m : CBMap) : CBMap :=
  match cbmFind k m with
  | none => m
  | some cb => cbmUpdate k (cbRecordSuccess now cb) m

/-- Embedding of the per-instance body of
`CircuitBreakerManager.allowRequest`: bump the request statistics, then allow
in CLOSED and HALF_OPEN; in OPEN, when `nextAttemptTime` has arrived perform
the lazy transition to HALF_OPEN and allow, otherwise reject (the thrown
`CircuitBreakerException` is modelled by `false`). -/
def cbAllowRequest (now : Nat) (cb : CircuitBreakerInstance) : Bool × CircuitBreakerInstance :=
  let cb1 := { cb with stats := { cb.stats with
    requestCount := cb.stats.requestCount + 1
    lastRequestTime := some now } }
  match cb1.state with
  | CBState.closed => (true, cb1)
  | CBState.halfOpen => (true, cb1)
  | CBState.opened =>
    match cb1.nextAttemptTime with
    | some t => if t ≤ now then (true, transitionToHalfOpen now cb1) else (false, cb1)
    | none => (false, cb1)

/-- `CircuitBreakerManager.allowRequest` at the manager level. -/
def cbmAllowRequest (now : Nat) (k : String) (m : CBMap) : Bool × CBMap :=
  let r := cbmGetOrCreate now k m
  let a := cbAllowRequest now r.1
  (a.1, cbmUpdate k a.2 r.2)

/-- Outcome of the single upstream call the handler issues for a credential,
supplied as an oracle (unary and streaming calls surface the same typed
errors). -/
inductive CallOutcome
  | success
  | failure (e : WrappedError)

/-- Errors `handleChatCompletions` can answer with on the paths embedded
here. -/
inductive HandlerError
  | noCredentialAvailable
  | circuitOpenRejected
  | upstream (e : WrappedError)
deriving Repr, DecidableEq

/-- Embedding of the control flow of `RequestHandler.handleChatCompletions`
after request validation: register the inbound credentials, select ONE key,
consult the breaker, issue ONE upstream call, and record the outcome; the
catch block records a failure against the selected key (when one was
selected) and returns the error.  Parsing, the model-name mapping and
response serialization, which no part of C1 depends on, are not modelled.
The last component lists the credentials against which an upstream call was
actually issued. -/
def handleChatCompletions (cfg : CircuitBreakerConfig) (now : Nat)
    (keys : List String) (oracle : String → CallOutcome)
    (lb : LoadBalancerState) (cbm : CBMap) :
    Except HandlerError Unit × LoadBalancerState × CBMap × List String :=
  let lb1 := addApiKeys keys lb
  match selectApiKey lb1 with
  | none => (Except.error HandlerError.noCredentialAvailable, lb1, cbm, [])
  | some (k, lb2) =>
    match cbmAllowRequest now k cbm with
    | (false, cbm1) =>
      (Except.error HandlerError.circuitOpenRejected,
        lbRecordFailure cfg now k lb2, cbmRecordFailure cfg now k cbm1, [])
    | (true, cbm1) =>
      match oracle k with
      | CallOutcome.success =>
        (Except.ok (), lbRecordSuccess k lb2, cbmRecordSuccess now k cbm1, [k])
      | CallOutcome.failure e =>
        (Except.error (HandlerError.upstream e),
          lbRecordFailure cfg now k lb2, cbmRecordFailure cfg now k cbm1, [k])

/-- An oracle on which every upstream attempt is rejected with status 401
(`CredentialRejected`). -/
def alwaysRejectedOracle : String → CallOutcome :=
  fun _ => CallOutcome.failure (WrappedError.upstreamStatus 401)

/-- C1 counterexample: an inbound request carrying the two distinct fresh
credentials `k1, k2` whose first attempt (against `k1`) fails with
CredentialRejected is answered with that error after upstream attempts
against `[k1]` only — the orchestrator never tries `k2`. -/
theorem handler_no_failover_counterexample :
    (handleChatCompletions ⟨3, 60000⟩ 0 ["k1", "k2"] alwaysRejectedOracle
        ⟨[], 0⟩ ([] : CBMap)).2.2.2 = ["k1"] ∧
    (handleChatCompletions ⟨3, 60000⟩ 0 ["k1", "k2"] alwaysRejectedOracle
        ⟨[], 0⟩ ([] : CBMap)).1
      = Except.error (HandlerError.upstream (WrappedError.upstreamStatus 401)) := by
  constructor <;> rfl

lemma selectApiKey_key_mem (st : LoadBalancerState) (k : String)
    (st2 : LoadBalancerState) (h : selectApiKey st = some (k, st2)) :
    ∃ i ∈ st2.apiKeys, i.key = k := by
  unfold selectApiKey at h
  cases hA : getAvailableKeys st with
  | nil => rw [hA] at h; exact absurd h (by simp)
  | cons a rest =>
    rw [hA] at h
    simp only [Option.some.injEq, Prod.mk.injEq] at h
    obtain ⟨hk, hst2⟩ := h
    set selected := (a :: rest).getD (st.roundRobinIndex % (a :: rest).length) a with hsel
    have hmem : selected ∈ (a :: rest) := by
      rw [hsel, List.getD_eq_get _ _ (Nat.mod_lt _ (by simp))]
      exact List.get_mem _ _ _
    have hmemSt : selected ∈ st.apiKeys := by
      have := hA ▸ hmem
      exact List.mem_of_mem_filter this
    refine ⟨(fun i => if i.key == selected.key then
        { i with requestCount := i.requestCount + 1 } else i) selected, ?_, ?_⟩
    · rw [← hst2]
      exact List.mem_map_of_mem _ hmemSt
    · simp [← hk]

lemma lbRecordFailure_marks (cfg : CircuitBreakerConfig) (now : Nat) (k : String)
    (st : LoadBalancerState) (i : ApiKeyInfo) (hmem : i ∈ st.apiKeys) (hkey : i.key = k) :
    ∃ j ∈ (lbRecordFailure cfg now k st).apiKeys,
      j.key = k ∧ j.lastFailureTime = some now ∧ 1 ≤ j.failureCount := by
  refine ⟨lbFailureUpdate cfg now i, ?_, ?_⟩
  · have h := List.mem_map_of_mem
      (fun i => if i.key == k then lbFailureUpdate cfg now i else i) hmem
    simpa [lbRecordFailure, hkey] using h
  · simp only [lbFailureUpdate]
    split
    · refine ⟨hkey, rfl, ?_⟩
      show 1 ≤ i.failureCount + 1
      omega
    · refine ⟨hkey, rfl, ?_⟩
      show 1 ≤ i.failureCount + 1
      omega

/-- C1 (amended): per inbound request the orchestrator issues at most ONE
upstream attempt; whenever that attempt fails — CredentialRejected, Timeout
and 5xx included — the error is returned to the caller verbatim with no
second attempt against any other credential, and the failure is recorded
against the attempted credential (failure time stamped, failure count
positive) in the load balancer. -/
theorem handler_single_attempt (cfg : CircuitBreakerConfig) (now : Nat)
    (keys : List String) (oracle : String → CallOutcome)
    (lb : LoadBalancerState) (cbm : CBMap) :
    (handleChatCompletions cfg now keys oracle lb cbm).2.2.2.length ≤ 1 ∧
    (∀ k : String, ∀ e : WrappedError,
      (handleChatCompletions cfg now keys oracle lb cbm).2.2.2 = [k] →
      oracle k = CallOutcome.failure e →
      (handleChatCompletions cfg now keys oracle lb cbm).1
          = Except.error (HandlerError.upstream e) ∧
      ∃ j ∈ (handleChatCompletions cfg now keys oracle lb cbm).2.1.apiKeys,
        j.key = k ∧ j.lastFailureTime = some now ∧ 1 ≤ j.failureCount) := by
  cases hsel : selectApiKey (addApiKeys keys lb) with
  | none =>
    have hEq : handleChatCompletions cfg now keys oracle lb cbm
        = (Except.error HandlerError.noCredentialAvailable, addApiKeys keys lb, cbm, []) := by
      simp only [handleChatCompletions, hsel]
    rw [hEq]
    refine ⟨by simp, ?_⟩
    intro k e hk
    simp at hk
  | some p =>
    obtain ⟨k0, lb2⟩ := p
    cases hallow : cbmAllowRequest now k0 cbm with
    | mk allowed cbm1 =>
      cases allowed with
      | false =>
        have hEq : handleChatCompletions cfg now keys oracle lb cbm
            = (Except.error HandlerError.circuitOpenRejected,
                lbRecordFailure cfg now k0 lb2, cbmRecordFailure cfg now k0 cbm1, []) := by
          simp only [handleChatCompletions, hsel, hallow]
        rw [hEq]
        refine ⟨by simp, ?_⟩
        intro k e hk
        simp at hk
      | true =>
        cases horacle : oracle k0 with
        | success =>
          have hEq : handleChatCompletions cfg now keys oracle lb cbm
              = (Except.ok (), lbRecordSuccess k0 lb2, cbmRecordSuccess now k0 cbm1, [k0]) := by
            simp only [handleChatCompletions, hsel, hallow, horacle]
          rw [hEq]
          refine ⟨by simp, ?_⟩
          intro k e hk hfail
          simp only [List.cons.injEq, and_true] at hk
          rw [← hk, horacle] at hfail
          exact absurd hfail (by simp)
        | failure e0 =>
          have hEq : handleChatCompletions cfg now keys oracle lb cbm
              = (Except.error (HandlerError.upstream e0), lbRecordFailure cfg now k0 lb2,
                  cbmRecordFailure cfg now k0 cbm1, [k0]) := by
            simp only [handleChatCompletions, hsel, hallow, horacle]
          rw [hEq]
          refine ⟨by simp, ?_⟩
          intro k e hk hfail
          simp only [List.cons.injEq, and_true] at hk
          subst hk
          rw [horacle] at hfail
          have he : e0 = e := by injection hfail
          subst he
          obtain ⟨i, hi, hikey⟩ := selectApiKey_key_mem _ _ _ hsel
          exact ⟨rfl, lbRecordFailure_marks cfg now k0 lb2 i hi hikey⟩

/-- Witness for the amended C1: in the counterexample scenario (two fresh
credentials, first attempt rejected with 401 at time 5) the handler returns
the upstream error and the attempted credential `k1` carries the recorded
failure. -/
theorem handler_single_attempt_witness :
    (handleChatCompletions ⟨3, 60000⟩ 5 ["k1", "k2"] alwaysRejectedOracle
        ⟨[], 0⟩ ([] : CBMap)).1
      = Except.error (HandlerError.upstream (WrappedError.upstreamStatus 401)) ∧
    ∃ j ∈ (handleChatCompletions ⟨3, 60000⟩ 5 ["k1", "k2"] alwaysRejectedOracle
        ⟨[], 0⟩ ([] : CBMap)).2.1.apiKeys,
      j.key = "k1" ∧ j.lastFailureTime = some 5 ∧ 1 ≤ j.failureCount :=
  (handler_single_attempt ⟨3, 60000⟩ 5 ["k1", "k2"] alwaysRejectedOracle
      ⟨[], 0⟩ ([] : CBMap)).2 "k1" (WrappedError.upstreamStatus 401) rfl rfl

end ProxyGateway
